import Mathlib

/-!
Verification of the journal-preview pipeline (src/journal-preview.js).

The script fetches `assets/data/journal.json`, validates that it contains a
non-empty `entries` array, sorts the entries by their `date` string
descending, truncates to `MAX_CARDS = 3`, renders each entry as an HTML card
appended to the grid container, and reports failures by replacing the
content of a fallback placeholder element.

This file gives a shallow embedding of that script: JSON values are an
inductive type, the DOM state touched by the script is a four-field record,
and each function of the script (`formatDate`, `escapeHtml`, `buildCard`,
`renderCards`, `showError`, `loadJournal` for both transports) is translated
into a Lean function.  JavaScript exceptions are modelled with `Except`,
`undefined` with `Option`, and the `Date` object with epoch-day arithmetic.
-/

namespace JournalPreview

/-- JSON values as produced by `JSON.parse` / `response.json()`.
Numbers are modelled as integers (every field of `journal.json` is a
string; integer fidelity suffices for the claims, and no floating point
enters any claim). -/
inductive Json where
  | null : Json
  | bool (b : Bool) : Json
  | num (n : Int) : Json
  | str (s : String) : Json
  | arr (elems : List Json) : Json
  | obj (fields : List (String × Json)) : Json

/-- Decimal digits of a natural number, most significant digit first,
by structural recursion on a fuel argument (`n` itself is always enough
fuel, since the value shrinks by a factor of ten per digit). -/
def natCharsAux : Nat → Nat → List Char
  | _, 0 => []
  | 0, _ + 1 => []
  | fuel + 1, n + 1 =>
    natCharsAux fuel ((n + 1) / 10) ++ [Nat.digitChar ((n + 1) % 10)]

/-- Decimal digits of a natural number, most significant digit first;
`natChars 0 = []`. -/
def natChars (n : Nat) : List Char := natCharsAux n n

/-- Decimal rendering of a natural number, as JavaScript prints integral
numbers. -/
def natToStr (n : Nat) : String :=
  if n = 0 then "0" else String.mk (natChars n)

/-- Decimal rendering of an integer, as JavaScript prints integral
numbers. -/
def intToStr : Int → String
  | .ofNat n => natToStr n
  | .negSucc n => "-" ++ natToStr (n + 1)

mutual

/-- The JavaScript `String(v)` coercion on JSON values
(`String(undefined)` is handled by `jsOptToStr` below). -/
def jsToStr : Json → String
  | .null => "null"
  | .bool true => "true"
  | .bool false => "false"
  | .num n => intToStr n
  | .str s => s
  | .arr xs => jsArrToStr xs
  | .obj _ => "[object Object]"

/-- `Array.prototype.toString`: elements joined by commas, with `null`
elements rendered as the empty string. -/
def jsArrToStr : List Json → String
  | [] => ""
  | [Json.null] => ""
  | [x] => jsToStr x
  | Json.null :: xs => "," ++ jsArrToStr xs
  | x :: xs => jsToStr x ++ "," ++ jsArrToStr xs

end

/-- `String(v)` where `v` may be `undefined` (a missing object field). -/
def jsOptToStr : Option Json → String
  | none => "undefined"
  | some j => jsToStr j

/-- Property lookup `o[k]` on a decoded JSON value: `undefined` (`none`)
unless the value is an object with the key; `JSON.parse` keeps the last
duplicate key, which the lookup honours. -/
def jsField : Json → String → Option Json
  | .obj fields, k => lookupLast fields k
  | _, _ => none
where
  lookupLast : List (String × Json) → String → Option Json
    | [], _ => none
    | (k', v) :: rest, k =>
      match lookupLast rest k with
      | some r => some r
      | none => if k' = k then some v else none

/-- JavaScript falsiness of a decoded JSON value (`!data`).  `undefined`
never reaches this test in the script. -/
def jsFalsy : Json → Bool
  | .null => true
  | .bool b => !b
  | .num n => n == 0
  | .str s => s == ""
  | _ => false

/-! ### escapeHtml (src/journal-preview.js lines 82–91) -/

/-- The per-character replacement performed by
`String(str).replace(/[&<>"']/g, c => map[c])`: each of the five
characters becomes its named entity, every other character is kept. -/
def escChar (c : Char) : String :=
  if c = '&' then "&amp;"
  else if c = '<' then "&lt;"
  else if c = '>' then "&gt;"
  else if c = '"' then "&quot;"
  else if c = '\'' then "&#39;"
  else String.singleton c

/-- Left-to-right global regex replacement over a character list. -/
def escapeList : List Char → String
  | [] => ""
  | c :: cs => escChar c ++ escapeList cs

/-- `escapeHtml` from the script, on string input (the `String(str)`
coercion is applied by `escapeHtmlJs` below where the script passes
possibly-undefined fields). -/
def escapeHtml (s : String) : String := escapeList s.data

/-- `escapeHtml(v)` as called on entry fields, including the
`String(str)` coercion of `undefined`/non-string values. -/
def escapeHtmlJs (v : Option Json) : String := escapeHtml (jsOptToStr v)

/-- Number of occurrences of a character in a string. -/
def countChar (c : Char) (s : String) : Nat := s.data.count c

/-- Is this one of the five characters escaped by `escapeHtml`? -/
def isSpecialChar (c : Char) : Bool :=
  c = '&' || c = '<' || c = '>' || c = '"' || c = '\''

/-- Number of escapable characters in a string. -/
def countSpecials (s : String) : Nat := s.data.countP isSpecialChar

/-! ### Date model: `new Date(y, m, d)` as epoch-day arithmetic

The script builds `new Date(year, monthIndex, day)` from the parts of the
ISO string and reads it back with `getDate`/`getMonth`/`getFullYear`.
We model the ECMAScript semantics on integral arguments: the 0–99 year
adjustment, `MakeDay`'s month overflow, day-of-month overflow via
epoch-day arithmetic (Hinnant's civil-calendar algorithms), and
`TimeClip`'s ±8.64e15 ms range, outside which the date is invalid
(`isNaN(d.getTime())`). -/

/-- Epoch-day number (days since 1970-01-01) of day 1 of month index `m`
(0-based, expected in `[0, 11]`) of year `y`: the year is shifted so
that it starts in March, split into a 400-year era and a year-of-era,
and the day count is assembled from era days, year-of-era days with the
leap corrections, and the March-based day-of-year of the month. -/
def daysFromCivil (y m : Int) : Int :=
  go (if m ≤ 1 then y - 1 else y) (if 2 ≤ m then m - 2 else m + 10)
where
  /-- Day number from the March-shifted year and March-based month. -/
  go (y' mp : Int) : Int :=
    y' / 400 * 146097 + eraDays (y' - y' / 400 * 400) mp - 719468
  /-- Day offset inside an era: year-of-era days plus day-of-year. -/
  eraDays (yoe mp : Int) : Int :=
    yoe * 365 + yoe / 4 - yoe / 100 + (153 * mp + 2) / 5

/-- Length of the March-based year `yoe` (0-based from the start of a
400-year era): it contains the February of civil year `yoe + 1` of the
era, which is leap iff divisible by 4 and, at a century, only at the
era's end. -/
def marchYearLen (yoe : Int) : Int :=
  if (yoe + 1).emod 4 = 0 ∧ ((yoe + 1).emod 100 ≠ 0 ∨ yoe + 1 = 400) then 366
  else 365

/-- Locate the March-based year of a day offset into an era by walking
the year lengths, returning the year index and the day-of-year
remainder; 400 steps of fuel always suffice within one era
(146097 days). -/
def yoeFromDoe : Nat → Int → Int → Int × Int
  | 0, yoe, doe => (yoe, doe)
  | fuel + 1, yoe, doe =>
    if doe < marchYearLen yoe then (yoe, doe)
    else yoeFromDoe fuel (yoe + 1) (doe - marchYearLen yoe)

/-- Month (March-based index 0–11) and 1-based day of month from a
March-based day of year, by the cumulative month-length thresholds
(March onwards: 31, 30, 31, 30, 31, 31, 30, 31, 30, 31, 31, 28/29). -/
def monthFromMarchDoy (doy : Int) : Int × Int :=
  if doy < 31 then (0, doy + 1)
  else if doy < 61 then (1, doy - 30)
  else if doy < 92 then (2, doy - 60)
  else if doy < 122 then (3, doy - 91)
  else if doy < 153 then (4, doy - 121)
  else if doy < 184 then (5, doy - 152)
  else if doy < 214 then (6, doy - 183)
  else if doy < 245 then (7, doy - 213)
  else if doy < 275 then (8, doy - 244)
  else if doy < 306 then (9, doy - 274)
  else if doy < 337 then (10, doy - 305)
  else (11, doy - 336)

/-- Civil month index (0-based, as `getMonth` returns it) from a
March-based day of year: March-based month `mp` is civil month
`mp + 3` up to December and `mp - 9` for January/February. -/
def monthIdxOfDoy (doy : Int) : Int :=
  (if (monthFromMarchDoy doy).1 < 10 then (monthFromMarchDoy doy).1 + 3
   else (monthFromMarchDoy doy).1 - 9) - 1

/-- `(year, monthIndex, day)` of an epoch-day number, `monthIndex`
0-based as `Date.prototype.getMonth` returns it: split into 400-year
eras, walk the March-based years of the era, read the month off the
threshold table, and shift March-based back to civil (January and
February, month index ≤ 1, belong to the next civil year). -/
def civilFromDays (z : Int) : Int × Int × Int :=
  ((z + 719468) / 146097 * 400
     + (yoeFromDoe 400 0 ((z + 719468) % 146097)).1
     + (if monthIdxOfDoy ((yoeFromDoe 400 0 ((z + 719468) % 146097)).2) ≤ 1
        then 1 else 0),
   monthIdxOfDoy ((yoeFromDoe 400 0 ((z + 719468) % 146097)).2),
   (monthFromMarchDoy ((yoeFromDoe 400 0 ((z + 719468) % 146097)).2)).2)

/-- `Date.prototype.getFullYear` on an epoch-day number. -/
def getFullYear (z : Int) : Int := (civilFromDays z).1

/-- `Date.prototype.getMonth` (0-based) on an epoch-day number. -/
def getMonth (z : Int) : Int := (civilFromDays z).2.1

/-- `Date.prototype.getDate` (day of month) on an epoch-day number. -/
def getDate (z : Int) : Int := (civilFromDays z).2.2

/-- `new Date(y, m, d)` with integral arguments, as an epoch-day number:
years 0–99 map to 1900–1999, the month index overflows into the year,
the day overflows into the month, and a result outside `TimeClip`'s
range (±100000000 days) is the invalid date, modelled as `none`
(`isNaN(d.getTime())` in the source). -/
def mkDayNumber (y m d : Int) : Option Int :=
  clip (daysFromCivil ((jsYear y * 12 + m) / 12)
          ((jsYear y * 12 + m) % 12)
        + (d - 1))
where
  /-- The ECMAScript two-digit-year rule of the `Date` constructor. -/
  jsYear (y : Int) : Int := if 0 ≤ y ∧ y ≤ 99 then y + 1900 else y
  /-- `TimeClip`: day numbers beyond ±100000000 are the invalid date. -/
  clip (t : Int) : Option Int :=
    if -100000000 ≤ t ∧ t ≤ 100000000 then some t else none

/-! ### parseInt and split -/

/-- Whitespace skipped by `parseInt`. -/
def isWspChar (c : Char) : Bool :=
  c = ' ' || c = '\t' || c = '\n' || c = '\r' || c = '\x0b' || c = '\x0c'

/-- Maximal leading run of decimal digits. -/
def leadingDigits : List Char → List Char
  | [] => []
  | c :: cs => if c.isDigit then c :: leadingDigits cs else []

/-- Value of a digit run, most significant digit first. -/
def digitsToNat (ds : List Char) : Nat :=
  ds.foldl (fun acc c => acc * 10 + (c.toNat - '0'.toNat)) 0

/-- Maximal leading digit run as a number; `none` when there is no
digit (`parseInt` returns `NaN`). -/
def parseDigits (cs : List Char) : Option Nat :=
  match leadingDigits cs with
  | [] => none
  | ds => some (digitsToNat ds)

/-- `parseInt(s, 10)`: skip leading whitespace, optional sign, then the
maximal digit prefix; `none` models `NaN`.  Arithmetic is exact (the
script only feeds date components through this). -/
def parseIntJs (cs : List Char) : Option Int :=
  match cs.dropWhile isWspChar with
  | '-' :: rest => (parseDigits rest).map (fun n => -(Int.ofNat n))
  | '+' :: rest => (parseDigits rest).map Int.ofNat
  | rest => (parseDigits rest).map Int.ofNat

/-- `iso.split('-')` on the character list: the segments between the
dashes, with empty segments kept (`"".split('-') = [""]`). -/
def splitOnDash : List Char → List (List Char)
  | [] => [[]]
  | c :: cs =>
    if c = '-' then [] :: splitOnDash cs
    else
      match splitOnDash cs with
      | [] => [[c]]
      | p :: ps => (c :: p) :: ps

/-! ### The two formatter branches -/

/-- The fixed 12-entry month table of the manual fallback branch
(source lines 72–75). -/
def monthsTable : List String :=
  ["Jan", "Feb", "Mar", "Apr", "May", "Jun",
   "Jul", "Aug", "Sep", "Oct", "Nov", "Dec"]

/-- Modelled from the spec: the month abbreviation produced by the
locale-aware primary formatter `Intl.DateTimeFormat('en-NZ',
{month: 'short'})`, an environment capability whose code is not part of
this repository.  The spec fixes it as "month-abbreviated" with the
example "15 Feb 2025" and requires the manual table to be
byte-identical to it. -/
def intlMonthShort : Int → String
  | 0 => "Jan"
  | 1 => "Feb"
  | 2 => "Mar"
  | 3 => "Apr"
  | 4 => "May"
  | 5 => "Jun"
  | 6 => "Jul"
  | 7 => "Aug"
  | 8 => "Sep"
  | 9 => "Oct"
  | 10 => "Nov"
  | 11 => "Dec"
  | _ => "undefined"

/-- The manual fallback branch of `formatDate` (source line 76):
`d.getDate() + ' ' + months[d.getMonth()] + ' ' + d.getFullYear()`.
An out-of-range index would render as `undefined` in JavaScript; the
month index is proved to lie in `[0, 11]`, so the `getD` default is
never taken. -/
def fallbackFormatDays (t : Int) : String :=
  intToStr (getDate t) ++ " " ++ monthsTable.getD (getMonth t).toNat "undefined"
    ++ " " ++ intToStr (getFullYear t)

/-- Modelled from the spec: the primary branch of `formatDate`
(`Intl.DateTimeFormat('en-NZ', {day: 'numeric', month: 'short', year:
'numeric'})` applied to the constructed `Date`), reading day, month and
year off the same date value. -/
def intlFormatDays (t : Int) : String :=
  intToStr (getDate t) ++ " " ++ intlMonthShort (getMonth t)
    ++ " " ++ intToStr (getFullYear t)

/-- `formatDate` from the source (lines 52–78), parameterised by the
formatting branch taken by the try/catch: split the input on `'-'`,
require at least three parts, build a `Date` from `parseInt` of the
first three parts (month made 0-based), return the input verbatim when
any `parseInt` is `NaN` or the date is invalid, and otherwise format
the date. -/
def formatDateWith (fmt : Int → String) (iso : String) : String :=
  if (splitOnDash iso.data).length < 3 then iso
  else
    match parseIntJs ((splitOnDash iso.data).getD 0 []),
        parseIntJs ((splitOnDash iso.data).getD 1 []),
        parseIntJs ((splitOnDash iso.data).getD 2 []) with
    | some y, some mo, some d =>
      match mkDayNumber y (mo - 1) d with
      | some t => fmt t
      | none => iso
    | _, _, _ => iso

/-- `formatDate` with the primary (Intl) branch, the one taken in any
environment where `Intl.DateTimeFormat` exists. -/
def formatDate (iso : String) : String := formatDateWith intlFormatDays iso

/-- `formatDate` with the manual fallback branch (the catch arm). -/
def formatDateManual (iso : String) : String :=
  formatDateWith fallbackFormatDays iso

/-! ### The JavaScript `<` relation on `date` fields -/

/-- UTF-16 code units of a string (JavaScript compares strings code
unit by code unit). -/
def utf16Units (s : String) : List Nat :=
  (s.data.map fun c =>
    if c.toNat < 0x10000 then [c.toNat]
    else [0xD800 + (c.toNat - 0x10000) / 0x400,
          0xDC00 + (c.toNat - 0x10000) % 0x400]).flatten

/-- Lexicographic strict order on code-unit lists. -/
def lexLtUnits : List Nat → List Nat → Bool
  | [], [] => false
  | [], _ :: _ => true
  | _ :: _, [] => false
  | a :: as, b :: bs =>
    if a < b then true else if b < a then false else lexLtUnits as bs

/-- JavaScript string `<`. -/
def jsStrLt (a b : String) : Bool := lexLtUnits (utf16Units a) (utf16Units b)

/-- `ToPrimitive` restricted to the operands for which it yields a
string (strings, arrays via their `toString`, plain objects). -/
def toPrimStr : Option Json → Option String
  | some (.str s) => some s
  | some (.arr xs) => some (jsArrToStr xs)
  | some (.obj _) => some "[object Object]"
  | _ => none

/-- `Number(s)` string-to-number coercion: a trimmed empty string is 0,
otherwise an optionally signed digit run; anything else is `NaN`
(`none`).  Decimal points and exponents are out of scope because JSON
numbers are modelled as integers. -/
def strToNumber (s : String) : Option Int :=
  match ((s.data.dropWhile isWspChar).reverse.dropWhile isWspChar).reverse with
  | [] => some 0
  | '-' :: rest =>
    if rest ≠ [] ∧ rest.all Char.isDigit then some (-(digitsToNat rest : Int))
    else none
  | '+' :: rest =>
    if rest ≠ [] ∧ rest.all Char.isDigit then some (digitsToNat rest : Int)
    else none
  | rest =>
    if rest.all Char.isDigit then some (digitsToNat rest : Int) else none

/-- `ToNumber` on a possibly-undefined decoded JSON value; `none`
models `NaN`. -/
def toNumberJs : Option Json → Option Int
  | none => none
  | some .null => some 0
  | some (.bool b) => some (if b then 1 else 0)
  | some (.num n) => some n
  | some (.str s) => strToNumber s
  | some (.arr xs) => strToNumber (jsArrToStr xs)
  | some (.obj _) => none

/-- The JavaScript `<` relation on possibly-undefined decoded JSON
values: when both operands convert to primitive strings they are
compared by UTF-16 code units, otherwise both are converted to numbers
and any `NaN` makes the comparison false. -/
def jsLtVal (a b : Option Json) : Bool :=
  match toPrimStr a, toPrimStr b with
  | some x, some y => jsStrLt x y
  | _, _ =>
    match toNumberJs a, toNumberJs b with
    | some x, some y => decide (x < y)
    | _, _ => false

/-! ### Selector: sort by date descending and truncate -/

/-- `entry.date`. -/
def dateOf (e : Json) : Option Json := jsField e "date"

/-- The comparator passed to `sort` in `renderCards` (source lines
130–132): `b.date < a.date ? -1 : b.date > a.date ? 1 : 0`. -/
def dateCmp (a b : Json) : Int :=
  if jsLtVal (dateOf b) (dateOf a) then -1
  else if jsLtVal (dateOf a) (dateOf b) then 1
  else 0

/-- `dateCmp a b ≤ 0`: the comparator lets `a` stay before `b`. -/
def dateLe (a b : Json) : Bool := decide (dateCmp a b ≤ 0)

/-- Stable insertion of `x` in front of the first element it may
precede. -/
def insertEnt (x : Json) : List Json → List Json
  | [] => [x]
  | y :: ys => if dateLe x y then x :: y :: ys else y :: insertEnt x ys

/-- `entries.slice().sort(comparator)`.  ECMAScript (since ES2019)
requires `Array.prototype.sort` to be stable, and on string dates this
comparator induces a total preorder, under which the stable result is
unique; stable insertion sort is therefore a faithful model of the
sort. -/
def sortEntries : List Json → List Json
  | [] => []
  | x :: xs => insertEnt x (sortEntries xs)

/-- `MAX_CARDS` (source line 36). -/
def MAX_CARDS : Nat := 3

/-- The selector inside `renderCards`: sorted copy, newest first,
truncated to `MAX_CARDS`. -/
def selectLatest (entries : List Json) : List Json :=
  (sortEntries entries).take MAX_CARDS

/-! ### Renderer -/

/-- The HTML assembled by `buildCard` (source lines 109–123) once the
formatted date is known.  Note from the source: every text field passes
through `escapeHtml` (with the JavaScript `String()` coercion turning a
missing field into the text `undefined`), except the formatted date,
which is interpolated into the `<time>` element verbatim; the raw
`date` goes escaped into the `datetime` attribute; a falsy `readTime`
omits its `<span>` entirely. -/
def cardHtml (e : Json) (formattedDate : String) : String :=
  let safeTitle := escapeHtmlJs (jsField e "title")
  let safeExcerpt := escapeHtmlJs (jsField e "excerpt")
  let safeCategory := escapeHtmlJs (jsField e "category")
  let safeReadTime :=
    match jsField e "readTime" with
    | some v => if jsFalsy v then "" else escapeHtmlJs (some v)
    | none => ""
  let safeUrl := escapeHtmlJs (jsField e "url")
  "<li class=\"card\">" ++
    "<span class=\"card__category\">" ++ safeCategory ++ "</span>" ++
    "<h3 class=\"card__title\">" ++
      "<a href=\"" ++ safeUrl ++ "\">" ++ safeTitle ++ "</a>" ++
    "</h3>" ++
    "<p class=\"card__excerpt\">" ++ safeExcerpt ++ "</p>" ++
    "<div class=\"card__meta\">" ++
      "<time class=\"card__date\" datetime=\"" ++
        escapeHtmlJs (jsField e "date") ++ "\">" ++
        formattedDate ++
      "</time>" ++
      (if safeReadTime ≠ "" then
        "<span class=\"card__read-time\">" ++ safeReadTime ++ "</span>"
      else "") ++
    "</div>" ++
  "</li>"

/-- `buildCard` (source lines 101–124).  Its first statement,
`formatDate(entry.date)`, calls `.split('-')` on the field and
therefore throws a `TypeError` when `entry.date` is missing or not a
string; the exception is modelled with `Except`. -/
def buildCard (e : Json) : Except Unit String :=
  match dateOf e with
  | some (.str s) => .ok (cardHtml e (formatDate s))
  | _ => .error ()

/-- `latest.map(buildCard).join('')`: the map aborts at the first
throwing entry. -/
def buildCards : List Json → Except Unit String
  | [] => .ok ""
  | e :: es => do
    let c ← buildCard e
    let rest ← buildCards es
    pure (c ++ rest)

/-! ### DOM state and the two pipeline paths -/

/-- The DOM state the script touches: the HTML appended to the grid
container, and the fallback placeholder — whether it exists, its
innerHTML, and its inline `display` style (`""` initially, `"none"`
once hidden).  The grid container itself is present, otherwise the
script returned before doing anything (source line 41). -/
structure Dom where
  gridHtml : String
  fallbackPresent : Bool
  fallbackHtml : String
  fallbackDisplay : String
deriving DecidableEq, Repr

/-- The error content written by `showError` (source lines 150–152). -/
def errorHtml (message : String) : String :=
  "<p>" ++ escapeHtml message ++ "</p>" ++
  "<p><a href=\"journal.html\">Browse all journal entries</a>.</p>"

/-- `showError` (source lines 147–154): overwrite the placeholder's
innerHTML when the placeholder exists, otherwise do nothing. -/
def showError (message : String) (dom : Dom) : Dom :=
  if dom.fallbackPresent then { dom with fallbackHtml := errorHtml message }
  else dom

/-- The placeholder-hiding statements of `renderCards` (source lines
137–138). -/
def hideFallback (dom : Dom) : Dom :=
  if dom.fallbackPresent then { dom with fallbackDisplay := "none" } else dom

/-- `renderCards` (source lines 128–143): sort a copy newest-first,
truncate to `MAX_CARDS`, hide the placeholder, then build the card HTML
and append it to the grid.  A `TypeError` thrown while building a card
escapes after the placeholder was already hidden, so the error value
carries the partially mutated DOM. -/
def renderCards (entries : List Json) (dom : Dom) : Except Dom Dom :=
  let latest := selectLatest entries
  let dom1 := hideFallback dom
  match buildCards latest with
  | .ok html => .ok { dom1 with gridHtml := dom1.gridHtml ++ html }
  | .error _ => .error dom1

/-- The "no entries" message (source lines 174 and 195). -/
def msgNoEntries : String := "No journal entries found yet."

/-- The generic failure message (source lines 180, 203 and 208). -/
def msgGeneric : String := "Could not load journal entries at this time."

/-- The XHR-path JSON failure message (source line 200). -/
def msgDecode : String := "Could not read journal data."

/-- The shared validation test
`!data || !Array.isArray(data.entries) || data.entries.length === 0`
(source lines 173 and 194); `some` returns the entries when validation
passes. -/
def validEntries (data : Json) : Option (List Json) :=
  if jsFalsy data then none
  else
    match jsField data "entries" with
    | some (.arr xs) => if xs.isEmpty then none else some xs
    | _ => none

/-- What the `fetch` transport hands to the continuations: a response
with its `ok` flag and the result of `response.json()` (`none` when the
body is not valid JSON and the `json()` promise rejects), or a rejected
network call. -/
inductive FetchEvent where
  | response (ok : Bool) (body : Option Json)
  | networkFailure

/-- The fetch path of `loadJournal` (source lines 165–181): a non-ok
status throws into the `catch`, a JSON decode failure rejects into the
`catch`, the `catch` shows the generic message; a validation failure
shows the "no entries" message; an exception escaping `renderCards`
also lands in the `catch`. -/
def loadJournalFetch (ev : FetchEvent) (dom : Dom) : Dom :=
  match ev with
  | .networkFailure => showError msgGeneric dom
  | .response false _ => showError msgGeneric dom
  | .response true none => showError msgGeneric dom
  | .response true (some data) =>
    match validEntries data with
    | none => showError msgNoEntries dom
    | some entries =>
      match renderCards entries dom with
      | .ok dom2 => dom2
      | .error dom2 => showError msgGeneric dom2

/-- What the `XMLHttpRequest` transport hands to the handlers: `onload`
with the HTTP status and the result of `JSON.parse(xhr.responseText)`
(`none` when the text is not valid JSON and `JSON.parse` throws), or
`onerror`. -/
inductive XhrEvent where
  | load (status : Nat) (body : Option Json)
  | networkFailure

/-- The XMLHttpRequest path of `loadJournal` (source lines 186–211).
The `try` block wraps `JSON.parse`, the validation and `renderCards`,
so an exception from any of them — malformed JSON as well as a
`TypeError` escaping `renderCards` — is reported as "Could not read
journal data."; a non-2xx status and `onerror` show the generic
message. -/
def loadJournalXhr (ev : XhrEvent) (dom : Dom) : Dom :=
  match ev with
  | .networkFailure => showError msgGeneric dom
  | .load status body =>
    if 200 ≤ status ∧ status < 300 then
      match body with
      | none => showError msgDecode dom
      | some data =>
        match validEntries data with
        | none => showError msgNoEntries dom
        | some entries =>
          match renderCards entries dom with
          | .ok dom2 => dom2
          | .error dom2 => showError msgDecode dom2
    else showError msgGeneric dom

/-! ### Predicates and concrete inputs used to state the claims -/

/-- Splitting on both dots and dashes, the delimiters named by the
spec's formatter sentence (the source splits on dashes only). -/
def splitOnDotDash : List Char → List (List Char)
  | [] => [[]]
  | c :: cs =>
    if c = '-' ∨ c = '.' then [] :: splitOnDotDash cs
    else
      match splitOnDotDash cs with
      | [] => [[c]]
      | p :: ps => (c :: p) :: ps

/-- A numeric component: non-empty and consisting of decimal digits. -/
def isNumericComp (p : List Char) : Bool := !p.isEmpty && p.all Char.isDigit

/-- How many dot-or-dash-delimited numeric components a string has. -/
def dotDashNumericCount (s : String) : Nat :=
  ((splitOnDotDash s.data).filter isNumericComp).length

/-- The exact raw-return condition of `formatDate`, read off the
source: fewer than three dash-separated parts, a `parseInt` `NaN`
among the first three, or a date outside the representable range. -/
def formatDateBails (iso : String) : Bool :=
  decide ((splitOnDash iso.data).length < 3) ||
    match parseIntJs ((splitOnDash iso.data).getD 0 []),
        parseIntJs ((splitOnDash iso.data).getD 1 []),
        parseIntJs ((splitOnDash iso.data).getD 2 []) with
    | some y, some mo, some d => (mkDayNumber y (mo - 1) d).isNone
    | _, _, _ => true

/-- Is `pat` a leading segment of the second list? -/
def isSegAt : List Char → List Char → Bool
  | [], _ => true
  | _ :: _, [] => false
  | p :: ps, c :: cs => p = c && isSegAt ps cs

/-- Does `pat` occur as a contiguous run somewhere in the list? -/
def containsAux (pat : List Char) : List Char → Bool
  | [] => pat.isEmpty
  | c :: cs => isSegAt pat (c :: cs) || containsAux pat cs

/-- Substring test (`s` contains `pat`). -/
def containsStr (s pat : String) : Bool := containsAux pat.data s.data

/-- Does the entry's `date` field hold a string? -/
def isStrDate (e : Json) : Bool :=
  match dateOf e with
  | some (.str _) => true
  | _ => false

/-- The entry's `date` string (defaulting to `""`). -/
def dateStrOf (e : Json) : String :=
  match dateOf e with
  | some (.str s) => s
  | _ => ""

/-- Does the entry's `date` field hold exactly the string `d`? -/
def hasDateStr (d : String) (e : Json) : Bool :=
  match dateOf e with
  | some (.str s) => s = d
  | _ => false

/-- Sorted-descending relation between entries, by their `date` strings
under lexicographic (UTF-16 code unit) comparison: `a` is at least as
recent as `b`. -/
def dateGeStr (a b : Json) : Prop :=
  jsStrLt (dateStrOf a) (dateStrOf b) = false

/-- A complete journal entry (concrete test input). -/
def entryA : Json :=
  .obj [("id", .str "a"), ("title", .str "Alpha"), ("excerpt", .str "First."),
        ("category", .str "UX"), ("date", .str "2025-01-01"),
        ("readTime", .str "5 min read"), ("url", .str "journal/a.html")]

/-- A second complete entry, dated later than `entryA`. -/
def entryB : Json :=
  .obj [("id", .str "b"), ("title", .str "Beta"), ("excerpt", .str "Second."),
        ("category", .str "UX"), ("date", .str "2025-01-05"),
        ("url", .str "journal/b.html")]

/-- A third entry sharing `entryB`'s date (a sort tie). -/
def entryC : Json :=
  .obj [("id", .str "c"), ("title", .str "Gamma"), ("excerpt", .str "Third."),
        ("category", .str "Code"), ("date", .str "2025-01-05"),
        ("url", .str "journal/c.html")]

/-- A fourth entry with an intermediate date. -/
def entryD : Json :=
  .obj [("id", .str "d"), ("title", .str "Delta"), ("excerpt", .str "Fourth."),
        ("category", .str "Code"), ("date", .str "2025-01-03"),
        ("url", .str "journal/d.html")]

/-- A fifth entry, the oldest. -/
def entryE : Json :=
  .obj [("id", .str "e"), ("title", .str "Eps"), ("excerpt", .str "Fifth."),
        ("category", .str "Code"), ("date", .str "2024-12-31"),
        ("url", .str "journal/e.html")]

/-- An entry whose required `date` field is missing. -/
def entryNoDate : Json :=
  .obj [("id", .str "x"), ("title", .str "NoDate"), ("excerpt", .str "Text."),
        ("category", .str "UX"), ("url", .str "journal/x.html")]

/-- An entry whose required `title` field is missing (date present). -/
def entryNoTitle : Json :=
  .obj [("id", .str "y"), ("excerpt", .str "Text."), ("category", .str "UX"),
        ("date", .str "2025-02-15"), ("url", .str "journal/y.html")]

/-- An entry whose `date` string does not parse as a date. -/
def entryOddDate : Json :=
  .obj [("id", .str "z"), ("title", .str "Odd"), ("excerpt", .str "Text."),
        ("category", .str "UX"), ("date", .str "a<b"),
        ("url", .str "journal/z.html")]

/-- The initial DOM of the homepage: grid empty, placeholder present
and visible with some loading content. -/
def dom0 : Dom :=
  { gridHtml := "", fallbackPresent := true,
    fallbackHtml := "<p>Loading latest journal entries</p>",
    fallbackDisplay := "" }

/-- The initial DOM of a page whose placeholder element is absent. -/
def dom0NoFallback : Dom :=
  { gridHtml := "", fallbackPresent := false, fallbackHtml := "",
    fallbackDisplay := "" }

/-! ## Theorems

First a layer of helper lemmas shared between claims, then one theorem
(plus counterexample/witness where required) per claim. -/

theorem escapeList_cons (c : Char) (cs : List Char) :
    escapeList (c :: cs) = escChar c ++ escapeList cs := rfl

theorem escChar_of_not_special {c : Char} (h : isSpecialChar c = false) :
    escChar c = String.singleton c := by
  unfold isSpecialChar at h
  simp only [Bool.or_eq_false_iff, decide_eq_false_iff_not] at h
  obtain ⟨⟨⟨⟨h1, h2⟩, h3⟩, h4⟩, h5⟩ := h
  unfold escChar
  simp [h1, h2, h3, h4, h5]

theorem special_cases {c : Char} (h : isSpecialChar c = true) :
    c = '&' ∨ c = '<' ∨ c = '>' ∨ c = '"' ∨ c = '\'' := by
  unfold isSpecialChar at h
  simp only [Bool.or_eq_true, decide_eq_true_eq] at h
  tauto

theorem count_escChar_amp (c : Char) :
    (escChar c).data.count '&' = (if isSpecialChar c then 1 else 0) := by
  by_cases h : isSpecialChar c = true
  · rw [if_pos h]
    rcases special_cases h with h | h | h | h | h <;> subst h <;> decide
  · rw [if_neg h]
    rw [escChar_of_not_special (by simpa using h)]
    have hc : ¬ c = '&' := by rintro rfl; exact h rfl
    simp [String.singleton, List.count_cons, hc]

theorem count_escChar_four (c : Char) :
    (escChar c).data.count '<' = 0 ∧ (escChar c).data.count '>' = 0 ∧
    (escChar c).data.count '"' = 0 ∧ (escChar c).data.count '\'' = 0 := by
  by_cases h : isSpecialChar c = true
  · rcases special_cases h with h | h | h | h | h <;> subst h <;>
      exact ⟨by decide, by decide, by decide, by decide⟩
  · rw [escChar_of_not_special (by simpa using h)]
    have h1 : ¬ c = '<' := by rintro rfl; exact h rfl
    have h2 : ¬ c = '>' := by rintro rfl; exact h rfl
    have h3 : ¬ c = '"' := by rintro rfl; exact h rfl
    have h4 : ¬ c = '\'' := by rintro rfl; exact h rfl
    simp [String.singleton, List.count_cons, h1, h2, h3, h4]

theorem count_escapeList_zero (q : Char)
    (hq : ∀ c, (escChar c).data.count q = 0) :
    ∀ cs, (escapeList cs).data.count q = 0
  | [] => rfl
  | c :: cs => by
    simp [escapeList_cons, String.data_append, List.count_append, hq c,
      count_escapeList_zero q hq cs]

theorem count_escapeList_amp :
    ∀ cs, (escapeList cs).data.count '&' = cs.countP isSpecialChar
  | [] => rfl
  | c :: cs => by
    simp only [escapeList_cons, String.data_append, List.count_append,
      count_escChar_amp c, count_escapeList_amp cs, List.countP_cons]
    by_cases h : isSpecialChar c = true <;> simp [h]
    omega

theorem escapeList_id {cs : List Char} (h : ∀ c ∈ cs, isSpecialChar c = false) :
    (escapeList cs).data = cs := by
  induction cs with
  | nil => rfl
  | cons c cs ih =>
    rw [escapeList_cons, String.data_append,
        escChar_of_not_special (h c (by simp))]
    have := ih (fun c hc => h c (by simp [hc]))
    simp [String.singleton, this]

/-- C1 counterexample: on the input "&" the escaping function produces
"&amp;", which itself contains one occurrence of the raw character '&'
(every named entity starts with an ampersand), so the claim that the
output contains zero occurrences of all five raw characters is false. -/
theorem C1_counterexample :
    escapeHtml "&" = "&amp;" ∧ countChar '&' (escapeHtml "&") = 1 := by
  constructor <;> decide

/-- C1 amended: the escaping function's output contains zero
occurrences of the four raw characters `< > " '`; its ampersand count
equals the number of escapable characters of the input (each of the
five escapes contributes exactly the ampersand that starts its entity,
and no other ampersand survives); and on a string containing none of
the five characters the output equals the input. -/
theorem C1_escaping (s : String) :
    countChar '<' (escapeHtml s) = 0 ∧
    countChar '>' (escapeHtml s) = 0 ∧
    countChar '"' (escapeHtml s) = 0 ∧
    countChar '\'' (escapeHtml s) = 0 ∧
    countChar '&' (escapeHtml s) = countSpecials s ∧
    (countSpecials s = 0 → escapeHtml s = s) := by
  unfold countChar escapeHtml countSpecials
  refine ⟨count_escapeList_zero _ (fun c => (count_escChar_four c).1) _,
    count_escapeList_zero _ (fun c => (count_escChar_four c).2.1) _,
    count_escapeList_zero _ (fun c => (count_escChar_four c).2.2.1) _,
    count_escapeList_zero _ (fun c => (count_escChar_four c).2.2.2) _,
    count_escapeList_amp _, fun h => ?_⟩
  have hall : ∀ c ∈ s.data, isSpecialChar c = false := by
    intro c hc
    have := (List.countP_eq_zero).mp h c hc
    simpa using this
  calc escapeList s.data = String.mk (escapeList s.data).data := rfl
    _ = String.mk s.data := by rw [escapeList_id hall]
    _ = s := rfl

/-- C1 witness: the amended statement evaluated at "a&b<c" (two
escapable characters, hence two output ampersands) and, through its
conditional clause, at the escape-free string "ab". -/
theorem C1_escaping_witness :
    countChar '&' (escapeHtml "a&b<c") = 2 ∧ escapeHtml "ab" = "ab" := by
  constructor
  · rw [(C1_escaping "a&b<c").2.2.2.2.1]; decide
  · exact (C1_escaping "ab").2.2.2.2.2 (by decide)

theorem showError_frame (m : String) (dom : Dom) :
    (showError m dom).gridHtml = dom.gridHtml ∧
    (showError m dom).fallbackPresent = dom.fallbackPresent ∧
    (showError m dom).fallbackDisplay = dom.fallbackDisplay := by
  unfold showError
  by_cases h : dom.fallbackPresent <;> simp [h]

/-- C9: the Error Reporter is idempotent and total — a repeated call
with the same message leaves the DOM exactly as one call does (indeed
any later call fully overwrites the earlier content rather than
accumulating), and with the placeholder element absent the call is a
no-op instead of a failure. -/
theorem C9_showError_idempotent (m m2 : String) (dom : Dom) :
    showError m (showError m dom) = showError m dom ∧
    showError m2 (showError m dom) = showError m2 dom ∧
    (dom.fallbackPresent = false → showError m dom = dom) := by
  unfold showError
  by_cases h : dom.fallbackPresent <;> simp [h]

/-- C9 witness: double invocation on the homepage DOM, and a call on a
DOM without the placeholder. -/
theorem C9_showError_idempotent_witness :
    showError msgGeneric (showError msgGeneric dom0)
      = showError msgGeneric dom0 ∧
    showError msgGeneric dom0NoFallback = dom0NoFallback :=
  ⟨(C9_showError_idempotent msgGeneric msgGeneric dom0).1,
   (C9_showError_idempotent msgGeneric msgGeneric dom0NoFallback).2.2 rfl⟩

/-- C10: the Error Reporter writes only the placeholder's inner
content — the grid container's HTML, the placeholder's presence and the
placeholder's visibility style are all unchanged by `showError`, on
every failure path (all failure paths end in a `showError` call, which
is the only DOM mutation they perform). -/
theorem C10_showError_only_content (m : String) (dom : Dom) :
    (showError m dom).gridHtml = dom.gridHtml ∧
    (showError m dom).fallbackPresent = dom.fallbackPresent ∧
    (showError m dom).fallbackDisplay = dom.fallbackDisplay :=
  showError_frame m dom

theorem validEntries_none_cases (data : Json)
    (h : jsField data "entries" = some (.arr []) ∨
         jsField data "entries" = none ∨
         ∃ v, jsField data "entries" = some v ∧ ∀ xs, v ≠ Json.arr xs) :
    validEntries data = none := by
  unfold validEntries
  by_cases hf : jsFalsy data <;> simp [hf]
  rcases h with h | h | ⟨v, hv, hne⟩
  · simp [h]
  · simp [h]
  · rw [hv]
    cases v with
    | arr elems => exact absurd rfl (hne elems)
    | _ => simp

/-- C5: a payload whose `entries` value is the empty array — or is
missing, or holds a non-array — drives both transport paths to the
failed state showing the "No journal entries found yet." message,
which differs from the generic network-failure message. -/
theorem C5_no_entries (data : Json) (status : Nat) (dom : Dom)
    (h : jsField data "entries" = some (.arr []) ∨
         jsField data "entries" = none ∨
         ∃ v, jsField data "entries" = some v ∧ ∀ xs, v ≠ Json.arr xs)
    (hs : 200 ≤ status ∧ status < 300) :
    loadJournalFetch (.response true (some data)) dom
      = showError msgNoEntries dom ∧
    loadJournalXhr (.load status (some data)) dom
      = showError msgNoEntries dom ∧
    msgNoEntries ≠ msgGeneric := by
  have hv := validEntries_none_cases data h
  refine ⟨?_, ?_, by decide⟩ <;>
    simp only [loadJournalFetch, loadJournalXhr, hv, if_pos hs]

/-- C5 witness: the concrete payload `{"entries": []}` on the homepage
DOM, with HTTP status 200 on the XHR path. -/
theorem C5_no_entries_witness :
    loadJournalFetch (.response true (some (.obj [("entries", .arr [])]))) dom0
      = showError msgNoEntries dom0 ∧
    loadJournalXhr (.load 200 (some (.obj [("entries", .arr [])]))) dom0
      = showError msgNoEntries dom0 ∧
    msgNoEntries ≠ msgGeneric :=
  C5_no_entries (.obj [("entries", .arr [])]) 200 dom0 (Or.inl rfl)
    (by decide)

/-- C6: every transport failure — fetch response not ok, fetch network
rejection, XHR non-2xx status, XHR network error — produces the failed
state with the generic "Could not load journal entries at this time."
message, and the loading placeholder's visibility style is not
touched. -/
theorem C6_transport_failure (body : Option Json) (status : Nat) (dom : Dom)
    (hs : ¬(200 ≤ status ∧ status < 300)) :
    loadJournalFetch (.response false body) dom = showError msgGeneric dom ∧
    loadJournalFetch .networkFailure dom = showError msgGeneric dom ∧
    loadJournalXhr (.load status body) dom = showError msgGeneric dom ∧
    loadJournalXhr .networkFailure dom = showError msgGeneric dom ∧
    (showError msgGeneric dom).fallbackDisplay = dom.fallbackDisplay := by
  refine ⟨rfl, rfl, ?_, rfl, (showError_frame msgGeneric dom).2.2⟩
  simp only [loadJournalXhr, if_neg hs]

/-- C6 witness: a 404 on the XHR path, on the homepage DOM. -/
theorem C6_transport_failure_witness :
    loadJournalXhr (.load 404 none) dom0 = showError msgGeneric dom0 ∧
    (showError msgGeneric dom0).fallbackDisplay = dom0.fallbackDisplay :=
  ⟨(C6_transport_failure none 404 dom0 (by decide)).2.2.1,
   (C6_transport_failure none 404 dom0 (by decide)).2.2.2.2⟩

/-- C3 counterexample: in the XMLHttpRequest path, a 2xx response whose
body fails `JSON.parse` produces the message "Could not read journal
data." — a third user-facing message, distinct from both messages the
claim allows, so the five error kinds do not collapse to exactly two
user-facing outcomes. -/
theorem C3_counterexample :
    loadJournalXhr (.load 200 none) dom0 = showError msgDecode dom0 ∧
    msgDecode ≠ msgNoEntries ∧ msgDecode ≠ msgGeneric :=
  ⟨rfl, by decide, by decide⟩

/-- C3 amended: the failure kinds collapse to exactly three user-facing
outcomes — validation failures show "No journal entries found yet." on
both paths; a decode failure shows the generic message on the fetch
path but "Could not read journal data." on the XHR path; and transport
failures (non-ok/non-2xx status, network rejection) show the generic
"Could not load journal entries at this time." on both paths. -/
theorem C3_three_messages (dom : Dom) (body : Option Json) (data : Json)
    (s sBad : Nat) (hs : 200 ≤ s ∧ s < 300)
    (hsBad : ¬(200 ≤ sBad ∧ sBad < 300))
    (h : jsField data "entries" = some (.arr []) ∨
         jsField data "entries" = none ∨
         ∃ v, jsField data "entries" = some v ∧ ∀ xs, v ≠ Json.arr xs) :
    (loadJournalFetch (.response false body) dom = showError msgGeneric dom) ∧
    (loadJournalFetch .networkFailure dom = showError msgGeneric dom) ∧
    (loadJournalXhr (.load sBad body) dom = showError msgGeneric dom) ∧
    (loadJournalXhr .networkFailure dom = showError msgGeneric dom) ∧
    (loadJournalFetch (.response true none) dom = showError msgGeneric dom) ∧
    (loadJournalXhr (.load s none) dom = showError msgDecode dom) ∧
    (loadJournalFetch (.response true (some data)) dom
      = showError msgNoEntries dom) ∧
    (loadJournalXhr (.load s (some data)) dom
      = showError msgNoEntries dom) := by
  have hv := validEntries_none_cases data h
  refine ⟨rfl, rfl, ?_, rfl, rfl, ?_, ?_, ?_⟩ <;>
    simp only [loadJournalFetch, loadJournalXhr, hv, if_pos hs, if_neg hsBad]

/-- C3 witness: the amended taxonomy at status 200/500, a decodable
empty payload, and an undecodable body, on the homepage DOM. -/
theorem C3_three_messages_witness :
    loadJournalXhr (.load 500 none) dom0 = showError msgGeneric dom0 ∧
    loadJournalXhr (.load 200 none) dom0 = showError msgDecode dom0 ∧
    loadJournalFetch (.response true (some (.obj [("entries", .arr [])]))) dom0
      = showError msgNoEntries dom0 := by
  have h := C3_three_messages dom0 none (.obj [("entries", .arr [])]) 200 500
    (by decide) (by decide) (Or.inl rfl)
  exact ⟨h.2.2.1, h.2.2.2.2.2.1, h.2.2.2.2.2.2.1⟩

theorem lexLt_irrefl : ∀ u, lexLtUnits u u = false
  | [] => rfl
  | a :: as => by simp [lexLtUnits, lexLt_irrefl as]

theorem lexLt_asymm : ∀ u v, lexLtUnits u v = true → lexLtUnits v u = false
  | [], [], _ => rfl
  | [], _ :: _, _ => rfl
  | _ :: _, [], h => by simp [lexLtUnits] at h
  | a :: as, b :: bs, h => by
    simp only [lexLtUnits] at h ⊢
    split_ifs at h ⊢ <;> first | rfl | omega | exact lexLt_asymm as bs h | simp_all

theorem lexLt_le_trans :
    ∀ u v w, lexLtUnits u v = false → lexLtUnits v w = false →
      lexLtUnits u w = false := by
  intro u
  induction u with
  | nil =>
    intro v w h1 h2
    cases v with
    | nil =>
      cases w with
      | nil => rfl
      | cons c cs => simpa [lexLtUnits] using h2
    | cons b bs => simp [lexLtUnits] at h1
  | cons a as ih =>
    intro v w h1 h2
    cases w with
    | nil => rfl
    | cons c cs =>
      cases v with
      | nil => simp [lexLtUnits] at h2
      | cons b bs =>
        simp only [lexLtUnits] at h1 h2 ⊢
        split_ifs at h1 h2 ⊢ <;>
          first | rfl | omega | exact ih bs cs h1 h2 | simp_all

theorem jsStrLt_irrefl (s : String) : jsStrLt s s = false := lexLt_irrefl _

theorem jsStrLt_asymm {a b : String} (h : jsStrLt a b = true) :
    jsStrLt b a = false := lexLt_asymm _ _ h

theorem jsStrLt_le_trans {a b c : String} (h1 : jsStrLt a b = false)
    (h2 : jsStrLt b c = false) : jsStrLt a c = false :=
  lexLt_le_trans _ _ _ h1 h2

theorem dateOf_of_isStrDate {e : Json} (h : isStrDate e = true) :
    dateOf e = some (.str (dateStrOf e)) := by
  unfold isStrDate at h
  unfold dateStrOf
  cases hd : dateOf e with
  | none => simp [hd] at h
  | some v => cases v <;> simp_all

theorem dateCmp_str {a b : Json} (ha : isStrDate a = true)
    (hb : isStrDate b = true) :
    dateCmp a b =
      if jsStrLt (dateStrOf b) (dateStrOf a) then -1
      else if jsStrLt (dateStrOf a) (dateStrOf b) then 1 else 0 := by
  unfold dateCmp
  rw [dateOf_of_isStrDate ha, dateOf_of_isStrDate hb]
  rfl

theorem dateLe_iff_str {a b : Json} (ha : isStrDate a = true)
    (hb : isStrDate b = true) :
    dateLe a b = true ↔ jsStrLt (dateStrOf a) (dateStrOf b) = false := by
  unfold dateLe
  rw [dateCmp_str ha hb]
  by_cases h1 : jsStrLt (dateStrOf b) (dateStrOf a) = true
  · simp [h1, jsStrLt_asymm h1]
  · by_cases h2 : jsStrLt (dateStrOf a) (dateStrOf b) = true <;>
      simp [h1, h2]

theorem dateLe_total {a b : Json} (h : dateLe a b = false) :
    dateLe b a = true := by
  unfold dateLe dateCmp at h ⊢
  split_ifs at h ⊢ <;> simp_all

theorem dateLe_trans_str {a b c : Json} (ha : isStrDate a = true)
    (hb : isStrDate b = true) (hc : isStrDate c = true)
    (h1 : dateLe a b = true) (h2 : dateLe b c = true) :
    dateLe a c = true := by
  rw [dateLe_iff_str ha hb] at h1
  rw [dateLe_iff_str hb hc] at h2
  rw [dateLe_iff_str ha hc]
  exact jsStrLt_le_trans h1 h2

theorem insertEnt_perm (x : Json) (l : List Json) :
    (insertEnt x l).Perm (x :: l) := by
  induction l with
  | nil => exact List.Perm.refl _
  | cons y ys ih =>
    unfold insertEnt
    by_cases h : dateLe x y = true
    · simp [h]
    · simp only [h]
      simp only [Bool.false_eq_true, if_false]
      exact (ih.cons y).trans (List.Perm.swap x y ys)

theorem sortEntries_perm (l : List Json) : (sortEntries l).Perm l := by
  induction l with
  | nil => exact List.Perm.refl _
  | cons x xs ih =>
    exact (insertEnt_perm x (sortEntries xs)).trans (ih.cons x)

theorem mem_insertEnt {y x : Json} {l : List Json} :
    y ∈ insertEnt x l ↔ y = x ∨ y ∈ l := by
  rw [(insertEnt_perm x l).mem_iff]
  simp

theorem pairwise_insertEnt {x : Json} {l : List Json}
    (hstr : ∀ e ∈ x :: l, isStrDate e = true)
    (hp : l.Pairwise (fun a b => dateLe a b = true)) :
    (insertEnt x l).Pairwise (fun a b => dateLe a b = true) := by
  induction l with
  | nil => simp [insertEnt]
  | cons y ys ih =>
    rw [List.pairwise_cons] at hp
    unfold insertEnt
    by_cases h : dateLe x y = true
    · simp only [h, if_true]
      refine List.pairwise_cons.mpr ⟨?_, List.pairwise_cons.mpr hp⟩
      intro z hz
      rcases List.mem_cons.mp hz with hz | hz
      · rw [hz]; exact h
      · exact dateLe_trans_str (hstr x (by simp)) (hstr y (by simp))
          (hstr z (by simp [hz])) h (hp.1 z hz)
    · simp only [h]
      simp only [Bool.false_eq_true, if_false]
      refine List.pairwise_cons.mpr ⟨?_, ?_⟩
      · intro z hz
        rcases mem_insertEnt.mp hz with hz | hz
        · subst hz
          exact dateLe_total (by simpa using h)
        · exact hp.1 z hz
      · refine ih (fun e he => hstr e ?_) hp.2
        rcases List.mem_cons.mp he with he | he
        · simp [he]
        · simp [he]

theorem sortEntries_pairwise {l : List Json}
    (hstr : ∀ e ∈ l, isStrDate e = true) :
    (sortEntries l).Pairwise (fun a b => dateLe a b = true) := by
  induction l with
  | nil => simp [sortEntries]
  | cons x xs ih =>
    have hmem : ∀ e ∈ x :: sortEntries xs, isStrDate e = true := by
      intro e he
      rcases List.mem_cons.mp he with he | he
      · exact hstr e (by simp [he])
      · exact hstr e (by simp [(sortEntries_perm xs).mem_iff.mp he])
    exact pairwise_insertEnt hmem (ih (fun e he => hstr e (by simp [he])))

theorem jsLtVal_str (a b : String) :
    jsLtVal (some (.str a)) (some (.str b)) = jsStrLt a b := rfl

theorem dateOf_of_hasDateStr {d : String} {x : Json}
    (h : hasDateStr d x = true) : dateOf x = some (.str d) := by
  unfold hasDateStr at h
  cases hd : dateOf x with
  | none => simp [hd] at h
  | some v => cases v <;> simp_all

theorem dateLe_of_ties {d : String} {x y : Json}
    (hx : hasDateStr d x = true) (hy : hasDateStr d y = true) :
    dateLe x y = true := by
  unfold dateLe dateCmp
  rw [dateOf_of_hasDateStr hx, dateOf_of_hasDateStr hy, jsLtVal_str,
    jsStrLt_irrefl]
  simp

theorem filter_insertEnt_pos {d : String} {x : Json} (l : List Json)
    (hx : hasDateStr d x = true) :
    (insertEnt x l).filter (hasDateStr d) = x :: l.filter (hasDateStr d) := by
  induction l with
  | nil => simp [insertEnt, hx]
  | cons y ys ih =>
    unfold insertEnt
    by_cases h : dateLe x y = true
    · simp [h, List.filter_cons, hx]
    · have hy : hasDateStr d y = false := by
        by_cases hy : hasDateStr d y = true
        · exact absurd (dateLe_of_ties hx hy) h
        · simpa using hy
      simp [h, List.filter_cons, hy, ih]

theorem filter_insertEnt_neg {d : String} {x : Json} (l : List Json)
    (hx : hasDateStr d x = false) :
    (insertEnt x l).filter (hasDateStr d) = l.filter (hasDateStr d) := by
  induction l with
  | nil => simp [insertEnt, hx]
  | cons y ys ih =>
    unfold insertEnt
    by_cases h : dateLe x y = true
    · simp [h, List.filter_cons, hx]
    · simp [h, List.filter_cons, ih]

theorem filter_sortEntries (d : String) (l : List Json) :
    (sortEntries l).filter (hasDateStr d) = l.filter (hasDateStr d) := by
  induction l with
  | nil => rfl
  | cons x xs ih =>
    show (insertEnt x (sortEntries xs)).filter (hasDateStr d) = _
    by_cases hx : hasDateStr d x = true
    · rw [filter_insertEnt_pos _ hx, ih, List.filter_cons, hx]
      simp
    · have hx' : hasDateStr d x = false := by simpa using hx
      rw [filter_insertEnt_neg _ hx', ih, List.filter_cons, hx']
      simp

/-- C2: for every entry collection of size ≥ 1 whose `date` fields are
strings (the valid collections), the Selector's output has length
`min 3 n`; is ordered by the `date` string descending under ordinary
(code-unit lexicographic) string comparison; is a sub-permutation of
the input, so it never pads or repeats entries; and for every date
value, the output's entries carrying that date are a prefix of the
input's entries carrying it, in input order — the stable-sort
guarantee. -/
theorem C2_selector (l : List Json) (hne : 1 ≤ l.length)
    (hstr : ∀ e ∈ l, isStrDate e = true) :
    (selectLatest l).length = min MAX_CARDS l.length ∧
    (selectLatest l).Pairwise dateGeStr ∧
    List.Subperm (selectLatest l) l ∧
    (∀ d, (selectLatest l).filter (hasDateStr d)
      <+: l.filter (hasDateStr d)) := by
  have hperm := sortEntries_perm l
  refine ⟨?_, ?_, ?_, ?_⟩
  · unfold selectLatest
    rw [List.length_take, hperm.length_eq]
  · have hp := sortEntries_pairwise hstr
    have hsub : List.Sublist (selectLatest l) (sortEntries l) :=
      List.take_sublist _ _
    have hp2 := hp.sublist hsub
    refine hp2.imp_of_mem ?_
    intro a b ha hb hab
    have ha' := hstr a (hperm.mem_iff.mp (hsub.subset ha))
    have hb' := hstr b (hperm.mem_iff.mp (hsub.subset hb))
    exact (dateLe_iff_str ha' hb').mp hab
  · exact ((List.take_sublist _ _).subperm).trans hperm.subperm
  · intro d
    refine ⟨(((sortEntries l).drop MAX_CARDS).filter (hasDateStr d)), ?_⟩
    unfold selectLatest
    rw [← List.filter_append, List.take_append_drop, filter_sortEntries]

/-- C2 witness: five entries dated 2025-01-01, 2025-01-05, 2025-01-05
(a tie), 2025-01-03 and 2024-12-31 select exactly the three most
recent, with the tied pair kept in input order. -/
theorem C2_selector_witness :
    (selectLatest [entryA, entryB, entryC, entryD, entryE]).length
        = min MAX_CARDS 5 ∧
    (selectLatest [entryA, entryB, entryC, entryD, entryE]).Pairwise
      dateGeStr ∧
    List.Subperm (selectLatest [entryA, entryB, entryC, entryD, entryE])
      [entryA, entryB, entryC, entryD, entryE] ∧
    selectLatest [entryA, entryB, entryC, entryD, entryE]
        = [entryB, entryC, entryD] := by
  have h := C2_selector [entryA, entryB, entryC, entryD, entryE] (by decide)
    (by decide)
  exact ⟨h.1, h.2.1, h.2.2.1, by rfl⟩

theorem marchYearLen_bounds (yoe : Int) :
    365 ≤ marchYearLen yoe ∧ marchYearLen yoe ≤ 366 := by
  unfold marchYearLen
  split_ifs <;> omega

theorem yoeFromDoe_bounds :
    ∀ (fuel : Nat) (yoe doe : Int), 0 ≤ doe →
      doe ≤ 365 + 365 * (fuel : Int) →
      yoe ≤ (yoeFromDoe fuel yoe doe).1 ∧
      0 ≤ (yoeFromDoe fuel yoe doe).2 ∧ (yoeFromDoe fuel yoe doe).2 ≤ 365
  | 0, yoe, doe, h0, h1 => by
    unfold yoeFromDoe
    refine ⟨le_refl _, h0, ?_⟩
    push_cast at h1
    omega
  | fuel + 1, yoe, doe, h0, h1 => by
    unfold yoeFromDoe
    have hlen := marchYearLen_bounds yoe
    by_cases h : doe < marchYearLen yoe
    · rw [if_pos h]
      exact ⟨le_refl _, h0, by omega⟩
    · rw [if_neg h]
      have hrec := yoeFromDoe_bounds fuel (yoe + 1) (doe - marchYearLen yoe)
        (by omega) (by push_cast at h1 ⊢; omega)
      exact ⟨by omega, hrec.2.1, hrec.2.2⟩

set_option maxHeartbeats 1000000 in
theorem monthFromMarchDoy_bounds {doy : Int} (h0 : 0 ≤ doy)
    (h1 : doy ≤ 365) :
    0 ≤ (monthFromMarchDoy doy).1 ∧ (monthFromMarchDoy doy).1 ≤ 11 ∧
    1 ≤ (monthFromMarchDoy doy).2 := by
  unfold monthFromMarchDoy
  split_ifs <;> simp <;> omega

theorem monthIdxOfDoy_bounds {doy : Int} (h0 : 0 ≤ doy) (h1 : doy ≤ 365) :
    0 ≤ monthIdxOfDoy doy ∧ monthIdxOfDoy doy ≤ 11 := by
  unfold monthIdxOfDoy
  have := monthFromMarchDoy_bounds h0 h1
  split_ifs <;> omega

theorem doy_facts (z : Int) :
    0 ≤ (yoeFromDoe 400 0 ((z + 719468) % 146097)).2 ∧
    (yoeFromDoe 400 0 ((z + 719468) % 146097)).2 ≤ 365 ∧
    0 ≤ (yoeFromDoe 400 0 ((z + 719468) % 146097)).1 := by
  have hb := yoeFromDoe_bounds 400 0 ((z + 719468) % 146097)
    (by omega) (by push_cast; omega)
  exact ⟨hb.2.1, hb.2.2, hb.1⟩

theorem getMonth_bounds (z : Int) : 0 ≤ getMonth z ∧ getMonth z ≤ 11 := by
  have hy := doy_facts z
  exact monthIdxOfDoy_bounds hy.1 hy.2.1

theorem getDate_pos (z : Int) : 1 ≤ getDate z := by
  have hy := doy_facts z
  exact (monthFromMarchDoy_bounds hy.1 hy.2.1).2.2

theorem getFullYear_nonneg {t : Int} (h : 0 ≤ t + 719468) :
    0 ≤ getFullYear t := by
  unfold getFullYear civilFromDays
  have hy := doy_facts t
  dsimp only
  split_ifs <;> omega

theorem month_table_eq {i : Int} (h0 : 0 ≤ i) (h1 : i ≤ 11) :
    intlMonthShort i = monthsTable.getD i.toNat "undefined" := by
  interval_cases i <;> rfl

theorem formatDays_eq (t : Int) : intlFormatDays t = fallbackFormatDays t := by
  unfold intlFormatDays fallbackFormatDays
  have hm := getMonth_bounds t
  rw [month_table_eq hm.1 hm.2]

theorem formatDate_eq_manual (iso : String) :
    formatDate iso = formatDateManual iso := by
  unfold formatDate formatDateManual formatDateWith
  simp only [formatDays_eq]

theorem daysFromCivil_lb {y m : Int} (hy : 99 ≤ y) (hm0 : 0 ≤ m)
    (hm1 : m ≤ 11) : -719467 ≤ daysFromCivil y m := by
  unfold daysFromCivil daysFromCivil.go daysFromCivil.eraDays
  split_ifs <;> omega

theorem mkDayNumber_z1_nonneg {y m d t : Int} (hy : 0 ≤ y) (hm : -1 ≤ m)
    (hd : 0 ≤ d) (ht : mkDayNumber y m d = some t) : 0 ≤ t + 719468 := by
  unfold mkDayNumber mkDayNumber.clip at ht
  have hq : 99 ≤ (mkDayNumber.jsYear y * 12 + m) / 12 := by
    unfold mkDayNumber.jsYear
    split_ifs <;> omega
  have hr : 0 ≤ (mkDayNumber.jsYear y * 12 + m) % 12 ∧
      (mkDayNumber.jsYear y * 12 + m) % 12 ≤ 11 := by omega
  have hlb := daysFromCivil_lb hq hr.1 hr.2
  split_ifs at ht <;> simp only [Option.some.injEq] at ht <;> omega

/-- C8: for the date string "2025-02-15" both formatter branches
produce exactly "15 Feb 2025", and for every date value the manual
12-entry-table fallback branch is byte-identical to the primary
locale-aware branch (the latter modelled from the spec, as
`Intl.DateTimeFormat` is an environment capability outside this
repository). -/
theorem C8_formatter_byte_identical :
    formatDate "2025-02-15" = "15 Feb 2025" ∧
    formatDateManual "2025-02-15" = "15 Feb 2025" ∧
    ∀ t : Int, intlFormatDays t = fallbackFormatDays t :=
  ⟨by decide, by decide, formatDays_eq⟩

/-- C8 witness: the two branches agree at the day number of
2025-02-15. -/
theorem C8_formatter_byte_identical_witness :
    intlFormatDays 20134 = fallbackFormatDays 20134 :=
  C8_formatter_byte_identical.2.2 20134

theorem digitChar_digit {k : Nat} (hk : k < 10) :
    (Nat.digitChar k).isDigit = true := by
  interval_cases k <;> decide

theorem natCharsAux_digits :
    ∀ (fuel n : Nat), ∀ c ∈ natCharsAux fuel n, c.isDigit = true := by
  intro fuel
  induction fuel with
  | zero =>
    intro n c hc
    cases n <;> simp [natCharsAux] at hc
  | succ fuel ih =>
    intro n c hc
    cases n with
    | zero => simp [natCharsAux] at hc
    | succ k =>
      unfold natCharsAux at hc
      rw [List.mem_append] at hc
      rcases hc with hc | hc
      · exact ih _ c hc
      · rw [List.mem_singleton] at hc
        rw [hc]
        exact digitChar_digit (Nat.mod_lt _ (by omega))

theorem natToStr_no_dash (n : Nat) : '-' ∉ (natToStr n).data := by
  unfold natToStr
  split_ifs with h
  · decide
  · intro hc
    exact absurd (natCharsAux_digits n n '-' hc) (by decide)

theorem intToStr_nonneg_no_dash {i : Int} (h : 0 ≤ i) :
    '-' ∉ (intToStr i).data := by
  cases i with
  | ofNat n => exact natToStr_no_dash n
  | negSucc n => exact absurd h (not_le.mpr (Int.negSucc_lt_zero n))

theorem intlMonthShort_no_dash {i : Int} (h0 : 0 ≤ i) (h1 : i ≤ 11) :
    '-' ∉ (intlMonthShort i).data := by
  interval_cases i <;> decide

theorem intlFormatDays_no_dash {t : Int} (h : 0 ≤ t + 719468) :
    '-' ∉ (intlFormatDays t).data := by
  unfold intlFormatDays
  intro hc
  simp only [String.data_append, List.mem_append] at hc
  have hm := getMonth_bounds t
  have hd := getDate_pos t
  rcases hc with (((hc | hc) | hc) | hc) | hc
  · exact intToStr_nonneg_no_dash (by omega) hc
  · exact absurd hc (by decide)
  · exact intlMonthShort_no_dash hm.1 hm.2 hc
  · exact absurd hc (by decide)
  · exact intToStr_nonneg_no_dash (getFullYear_nonneg h) hc

theorem splitOnDash_ne_nil : ∀ cs, splitOnDash cs ≠ []
  | [] => by simp [splitOnDash]
  | c :: cs => by
    unfold splitOnDash
    split_ifs
    · simp
    · cases h : splitOnDash cs <;> simp

theorem splitOnDash_no_dash : ∀ cs, ∀ p ∈ splitOnDash cs, '-' ∉ p
  | [], p, hp => by
    simp [splitOnDash] at hp
    simp [hp]
  | c :: cs, p, hp => by
    unfold splitOnDash at hp
    by_cases hc : c = '-'
    · rw [if_pos hc] at hp
      rcases List.mem_cons.mp hp with hp | hp
      · simp [hp]
      · exact splitOnDash_no_dash cs p hp
    · rw [if_neg hc] at hp
      cases hs : splitOnDash cs with
      | nil => exact absurd hs (splitOnDash_ne_nil cs)
      | cons q qs =>
        rw [hs] at hp
        rcases List.mem_cons.mp hp with hp | hp
        · subst hp
          intro hmem
          rcases List.mem_cons.mp hmem with hmem | hmem
          · exact hc hmem.symm
          · exact splitOnDash_no_dash cs q (by rw [hs]; simp) hmem
        · exact splitOnDash_no_dash cs p (by rw [hs]; simp [hp])

theorem dash_mem_of_two_parts :
    ∀ cs, 2 ≤ (splitOnDash cs).length → '-' ∈ cs
  | [], h => by simp [splitOnDash] at h
  | c :: cs, h => by
    unfold splitOnDash at h
    by_cases hc : c = '-'
    · simp [hc]
    · rw [if_neg hc] at h
      cases hs : splitOnDash cs with
      | nil => exact absurd hs (splitOnDash_ne_nil cs)
      | cons q qs =>
        rw [hs] at h
        simp only [List.length_cons] at h
        have h2 : 2 ≤ (splitOnDash cs).length := by rw [hs]; simp; omega
        exact List.mem_cons_of_mem c (dash_mem_of_two_parts cs h2)

theorem parseIntJs_nonneg {cs : List Char} (h : '-' ∉ cs) {n : Int}
    (hp : parseIntJs cs = some n) : 0 ≤ n := by
  unfold parseIntJs at hp
  split at hp
  · rename_i rest heq
    exfalso
    apply h
    have hmem : '-' ∈ cs.dropWhile isWspChar := by rw [heq]; simp
    exact (List.dropWhile_sublist _).subset hmem
  · rename_i rest heq
    rcases Option.map_eq_some'.mp hp with ⟨k, hk1, hk2⟩
    rw [← hk2]
    exact Int.ofNat_nonneg k
  · rcases Option.map_eq_some'.mp hp with ⟨k, hk1, hk2⟩
    rw [← hk2]
    exact Int.ofNat_nonneg k

theorem getD_mem_parts {l : List (List Char)} {k : Nat} (h : k < l.length) :
    l.getD k [] ∈ l := by
  rw [List.getD_eq_getElem l [] h]
  exact List.getElem_mem h

theorem bails_spec (iso : String) :
    (formatDateBails iso = true → ∀ fmt, formatDateWith fmt iso = iso) ∧
    (formatDateBails iso = false →
      ∃ t, ¬(splitOnDash iso.data).length < 3 ∧
        (∃ y mo d, parseIntJs ((splitOnDash iso.data).getD 0 []) = some y ∧
          parseIntJs ((splitOnDash iso.data).getD 1 []) = some mo ∧
          parseIntJs ((splitOnDash iso.data).getD 2 []) = some d ∧
          mkDayNumber y (mo - 1) d = some t) ∧
        ∀ fmt, formatDateWith fmt iso = fmt t) := by
  unfold formatDateBails formatDateWith
  by_cases hlen : (splitOnDash iso.data).length < 3
  · refine ⟨fun _ fmt => if_pos hlen, fun hb => ?_⟩
    exfalso
    revert hb
    simp [hlen]
  · cases hp0 : parseIntJs ((splitOnDash iso.data).getD 0 []) with
    | none =>
      refine ⟨fun _ fmt => ?_, fun hb => ?_⟩
      · rw [if_neg hlen]
      · exfalso
        revert hb
        simp [hlen, hp0]
    | some y =>
      cases hp1 : parseIntJs ((splitOnDash iso.data).getD 1 []) with
      | none =>
        refine ⟨fun _ fmt => ?_, fun hb => ?_⟩
        · rw [if_neg hlen]
        · exfalso
          revert hb
          simp [hlen, hp0, hp1]
      | some mo =>
        cases hp2 : parseIntJs ((splitOnDash iso.data).getD 2 []) with
        | none =>
          refine ⟨fun _ fmt => ?_, fun hb => ?_⟩
          · rw [if_neg hlen]
          · exfalso
            revert hb
            simp [hlen, hp0, hp1, hp2]
        | some d =>
          cases hmk : mkDayNumber y (mo - 1) d with
          | none =>
            refine ⟨fun _ fmt => ?_, fun hb => ?_⟩
            · rw [if_neg hlen]
              show (match mkDayNumber y (mo - 1) d with
                | some u => fmt u
                | none => iso) = iso
              rw [hmk]
            · exfalso
              revert hb
              simp [hlen, hp0, hp1, hp2, hmk]
          | some t =>
            refine ⟨fun hb fmt => ?_, fun _ => ?_⟩
            · exfalso
              revert hb
              simp [hlen, hp0, hp1, hp2, hmk]
            · refine ⟨t, hlen, ⟨y, mo, d, rfl, rfl, rfl, hmk⟩,
                fun fmt => ?_⟩
              rw [if_neg hlen]
              show (match mkDayNumber y (mo - 1) d with
                | some u => fmt u
                | none => iso) = fmt t
              rw [hmk]

set_option maxRecDepth 10000 in
/-- C4 counterexample, refuting the claim's characterisation in each
direction: "2025.02.15" has three dot-delimited numeric components (the
claim's own example even asserts it fails the criterion), yet the
formatter returns it raw, because the source splits on dashes only;
"12abc-5-6" has only two strictly numeric components, yet the formatter
does not return it raw, because `parseInt` accepts a numeric prefix;
"275770-1-1" has three dash-delimited numeric components, yet is
returned raw, because the date exceeds the representable range; and a
raw date is displayed unescaped inside the `<time>` element (only the
`datetime` attribute value is escaped), contradicting "still
escaped". -/
theorem C4_counterexample :
    (dotDashNumericCount "2025.02.15" = 3 ∧
      formatDate "2025.02.15" = "2025.02.15") ∧
    (dotDashNumericCount "12abc-5-6" = 2 ∧
      formatDate "12abc-5-6" = "6 May 1912" ∧
      "6 May 1912" ≠ "12abc-5-6") ∧
    (dotDashNumericCount "275770-1-1" = 3 ∧
      formatDate "275770-1-1" = "275770-1-1") ∧
    (formatDate "a<b" = "a<b" ∧
      containsStr (cardHtml entryOddDate (formatDate "a<b"))
        ">a<b</time>" = true ∧
      containsStr (cardHtml entryOddDate (formatDate "a<b"))
        ">a&lt;b</time>" = false) :=
  ⟨⟨by decide, by decide⟩, ⟨by decide, by decide, by decide⟩,
    ⟨by decide, by decide⟩, ⟨by decide, by decide, by decide⟩⟩

/-- C4 amended: the formatter returns the raw string exactly when the
source's parse bails — fewer than three dash-delimited parts, a
`parseInt` NaN among the first three parts, or a date outside the
representable range; otherwise it returns a formatted date that always
differs from the raw string, on both formatter branches.  (The raw
string is displayed without further escaping; only the `datetime`
attribute value passes through the escaping function.) -/
theorem C4_raw_return (iso : String) :
    (formatDateBails iso = true →
      formatDate iso = iso ∧ formatDateManual iso = iso) ∧
    (formatDateBails iso = false →
      formatDate iso ≠ iso ∧ formatDateManual iso ≠ iso) := by
  constructor
  · intro hb
    exact ⟨(bails_spec iso).1 hb _, (bails_spec iso).1 hb _⟩
  · intro hb
    obtain ⟨t, hlen, ⟨y, mo, d, hp0, hp1, hp2, hmk⟩, hfmt⟩ :=
      (bails_spec iso).2 hb
    have hlen3 : 3 ≤ (splitOnDash iso.data).length := by omega
    have hy : 0 ≤ y := parseIntJs_nonneg
      (splitOnDash_no_dash _ _ (getD_mem_parts (by omega))) hp0
    have hmo : 0 ≤ mo := parseIntJs_nonneg
      (splitOnDash_no_dash _ _ (getD_mem_parts (by omega))) hp1
    have hd : 0 ≤ d := parseIntJs_nonneg
      (splitOnDash_no_dash _ _ (getD_mem_parts (by omega))) hp2
    have hz1 := mkDayNumber_z1_nonneg hy (by omega) hd hmk
    have hdash : '-' ∈ iso.data := dash_mem_of_two_parts _ (by omega)
    have hne : intlFormatDays t ≠ iso := by
      intro he
      apply intlFormatDays_no_dash hz1
      rw [he]
      exact hdash
    constructor
    · unfold formatDate
      rw [hfmt]
      exact hne
    · unfold formatDateManual
      rw [hfmt, ← formatDays_eq]
      exact hne

/-- C4 witness: "not-a-date" (a `parseInt` NaN) comes back raw, while
"2025-02-15" does not. -/
theorem C4_raw_return_witness :
    formatDate "not-a-date" = "not-a-date" ∧
    formatDate "2025-02-15" ≠ "2025-02-15" :=
  ⟨((C4_raw_return "not-a-date").1 (by decide)).1,
   ((C4_raw_return "2025-02-15").2 (by decide)).1⟩

theorem buildCard_ok {e : Json} (h : isStrDate e = true) :
    buildCard e = .ok (cardHtml e (formatDate (dateStrOf e))) := by
  unfold buildCard
  rw [dateOf_of_isStrDate h]

theorem buildCards_ok : ∀ {l : List Json}, (∀ e ∈ l, isStrDate e = true) →
    ∃ s, buildCards l = .ok s
  | [], _ => ⟨"", rfl⟩
  | e :: es, h => by
    obtain ⟨s, hs⟩ := buildCards_ok (l := es) (fun x hx => h x (by simp [hx]))
    refine ⟨cardHtml e (formatDate (dateStrOf e)) ++ s, ?_⟩
    unfold buildCards
    rw [buildCard_ok (h e (by simp)), hs]
    rfl

theorem selectLatest_subset {l : List Json} : ∀ e ∈ selectLatest l, e ∈ l := by
  intro e he
  have h1 : e ∈ sortEntries l := (List.take_sublist _ _).subset he
  exact (sortEntries_perm l).mem_iff.mp h1

theorem validEntries_obj {l : List Json} (h : l ≠ []) :
    validEntries (.obj [("entries", .arr l)]) = some l := by
  cases l with
  | nil => exact absurd rfl h
  | cons x xs => rfl

/-- C7 counterexample: a payload that passes collection-level
validation but whose single entry lacks the `date` field does cause a
pipeline failure: `formatDate(entry.date)` calls `.split` on
`undefined` and throws, so the fetch path's catch shows the generic
message and the XHR path its decode message — the Failed state is
reached (with the placeholder, already hidden by `renderCards`, now
holding error content). -/
theorem C7_counterexample :
    loadJournalFetch (.response true
        (some (.obj [("entries", .arr [entryNoDate])]))) dom0
      = showError msgGeneric (hideFallback dom0) ∧
    loadJournalXhr (.load 200
        (some (.obj [("entries", .arr [entryNoDate])]))) dom0
      = showError msgDecode (hideFallback dom0) ∧
    (showError msgGeneric (hideFallback dom0)).fallbackHtml
      = errorHtml msgGeneric := by
  refine ⟨?_, ?_, by decide⟩ <;> decide

/-- C7 amended: no per-entry validation is performed for the fields
title, excerpt, category, url and readTime — for any non-empty
collection whose entries all carry string `date` fields, both transport
paths render successfully regardless of other missing fields, and a
missing field surfaces as the literal text `undefined` in the card
(here: the title link renders `>undefined</a>`); a missing or
non-string `date`, however, does fail the pipeline (see the
counterexample). -/
theorem C7_per_entry_leniency (l : List Json) (dom : Dom) (hne : l ≠ [])
    (hstr : ∀ e ∈ l, isStrDate e = true) :
    (∃ html,
      loadJournalFetch (.response true (some (.obj [("entries", .arr l)]))) dom
        = { hideFallback dom with
              gridHtml := (hideFallback dom).gridHtml ++ html } ∧
      loadJournalXhr (.load 200 (some (.obj [("entries", .arr l)]))) dom
        = { hideFallback dom with
              gridHtml := (hideFallback dom).gridHtml ++ html }) ∧
    buildCard entryNoTitle
      = .ok (cardHtml entryNoTitle (formatDate "2025-02-15")) ∧
    containsStr (cardHtml entryNoTitle (formatDate "2025-02-15"))
      ">undefined</a>" = true := by
  refine ⟨?_, by rfl, by decide⟩
  have hsel : ∀ e ∈ selectLatest l, isStrDate e = true :=
    fun e he => hstr e (selectLatest_subset e he)
  obtain ⟨html, hhtml⟩ := buildCards_ok hsel
  simp only [selectLatest] at hhtml
  refine ⟨html, ?_, ?_⟩
  · simp only [loadJournalFetch, validEntries_obj hne, renderCards,
      selectLatest, hhtml]
  · simp only [loadJournalXhr, validEntries_obj hne, renderCards,
      selectLatest, hhtml]
    rw [if_pos (by omega : 200 ≤ 200 ∧ 200 < 300)]

/-- C7 witness: a two-entry collection, one entry missing its title,
renders on both paths with the title shown as `undefined`. -/
theorem C7_per_entry_leniency_witness :
    (∃ html,
      loadJournalFetch (.response true
          (some (.obj [("entries", .arr [entryA, entryNoTitle])]))) dom0
        = { hideFallback dom0 with
              gridHtml := (hideFallback dom0).gridHtml ++ html } ∧
      loadJournalXhr (.load 200
          (some (.obj [("entries", .arr [entryA, entryNoTitle])]))) dom0
        = { hideFallback dom0 with
              gridHtml := (hideFallback dom0).gridHtml ++ html }) ∧
    buildCard entryNoTitle
      = .ok (cardHtml entryNoTitle (formatDate "2025-02-15")) ∧
    containsStr (cardHtml entryNoTitle (formatDate "2025-02-15"))
      ">undefined</a>" = true :=
  C7_per_entry_leniency [entryA, entryNoTitle] dom0 (by simp) (by decide)

end JournalPreview
